import Mathlib

/-!
Verification of the shard-aware connection pool of the scylladb cpp-driver.

The development embeds, as executable Lean definitions:
 * `ShardingInfo::shard_id` and `ShardingInfo::parse_sharding_info`
   (src/sharding_info.cpp), and
 * the `ConnectionPool` state machine (connection_pool.cpp): construction,
   `find_least_busy`, `notify_up_or_down`, `notify_critical_error`,
   `schedule_reconnect`, `internal_close`, `maybe_closed`, `on_reconnect`,
   `close_connection`,
and proves the spec's claims about them.

Machine integers are modelled as `Nat`/`Int` with explicit reduction
modulo `2^64` (for `int64_t`/`size_t` bit patterns) and `2^32` (for
`int32_t`), never as opaque fixed-width types.
-/

/-! ### Sharding math: `ShardingInfo::shard_id` -/

/-- Two's-complement 64-bit bit pattern of an integer (the unsigned value
whose bits are those of the wrapped signed value). -/
def wrap64 (t : Int) : Nat := (t % (2 ^ 64 : Int)).toNat

/-- Arithmetic (sign-extending) right shift by 32 of a 64-bit pattern, as
performed by C++ `>> 32` on a negative/nonnegative `int64_t`.  The result is
again a 64-bit bit pattern. -/
def asr64_32 (x : Nat) : Nat :=
  if x < 2 ^ 63 then x / 2 ^ 32 else x / 2 ^ 32 + (2 ^ 64 - 2 ^ 32)

/-- The value of a 32-bit bit pattern read as a signed `int32_t`
(the final `(int32_t)` cast in `shard_id`). -/
def toInt32 (x : Nat) : Int :=
  if x % 2 ^ 32 < 2 ^ 31 then ((x % 2 ^ 32 : Nat) : Int)
  else ((x % 2 ^ 32 : Nat) : Int) - 2 ^ 32

/-- `ShardingInfo::shard_id` (src/sharding_info.cpp:44-53), transcribed on bit
patterns.  `m` is `sharding_ignore_MSB_`, `n` is `shards_count_` (a `size_t`),
`t` is the signed 64-bit token.
The C++ statements map as follows:
`token += INT64_MIN` and `token <<= m` wrap modulo `2^64`;
`token & 0xffffffff` is `% 2^32`; the arithmetic `token >> 32` is `asr64_32`;
`tokLo * shards_count_` and `tokHi * shards_count_` are unsigned 64-bit
multiplications (the `size_t` operand converts the product to `uint64_t`)
whose patterns are stored in `int64_t`, so they reduce modulo `2^64`;
`mul1 >> 32` and `sum >> 32` are arithmetic shifts of those signed values,
i.e. `asr64_32` of the patterns; the final cast truncates to 32 bits read
as signed. -/
def shard_id_code (m n : Nat) (t : Int) : Int :=
  let u0 : Nat := wrap64 (t + 2 ^ 63)
  let u : Nat := (u0 * 2 ^ m) % 2 ^ 64
  let tokLo : Nat := u % 2 ^ 32
  let tokHi : Nat := (asr64_32 u) % 2 ^ 32
  let mul1 : Nat := (tokLo * n) % 2 ^ 64
  let mul2 : Nat := (tokHi * n) % 2 ^ 64
  let sum : Nat := (asr64_32 mul1 + mul2) % 2 ^ 64
  toInt32 (asr64_32 sum)

/-- Modelled from the spec: the reference shard computation of §4.A /
claim C1: remap `u = (t + 2^63) mod 2^64`, shift left by `m` with wrap,
split into 32-bit halves `lo`/`hi`, `mul1 = lo*n`, `mul2 = hi*n`, result
`((mul1 >> 32) + mul2) >> 32` with logical (unsigned) shifts. -/
def shard_id_spec (m n : Nat) (t : Int) : Nat :=
  let u : Nat := (wrap64 (t + 2 ^ 63) * 2 ^ m) % 2 ^ 64
  ((u % 2 ^ 32 * n) / 2 ^ 32 + (u / 2 ^ 32) * n) / 2 ^ 32

lemma shard_core (u n : Nat) (hu : u < 2 ^ 64) (hn1 : 1 ≤ n) (hn : n ≤ 2 ^ 31) :
    toInt32 (asr64_32 ((asr64_32 ((u % 2 ^ 32 * n) % 2 ^ 64) + ((asr64_32 u % 2 ^ 32) * n) % 2 ^ 64) % 2 ^ 64))
      = ((((u % 2 ^ 32 * n) / 2 ^ 32 + (u / 2 ^ 32) * n) / 2 ^ 32 : Nat) : Int)
    ∧ ((u % 2 ^ 32 * n) / 2 ^ 32 + (u / 2 ^ 32) * n) / 2 ^ 32 < n := by
  have hlo : u % 2 ^ 32 < 2 ^ 32 := Nat.mod_lt _ (by norm_num)
  have hhi : u / 2 ^ 32 < 2 ^ 32 := by
    rw [Nat.div_lt_iff_lt_mul (by norm_num : 0 < 2 ^ 32)]
    calc u < 2 ^ 64 := hu
      _ = 2 ^ 32 * 2 ^ 32 := by norm_num
  have htokHi : asr64_32 u % 2 ^ 32 = u / 2 ^ 32 := by
    unfold asr64_32
    split
    · exact Nat.mod_eq_of_lt hhi
    · have h1 : (2 ^ 64 - 2 ^ 32 : Nat) = 2 ^ 32 * (2 ^ 32 - 1) := by norm_num
      rw [h1, Nat.add_mul_mod_self_left]
      exact Nat.mod_eq_of_lt hhi
  rw [htokHi]
  have hmul1 : u % 2 ^ 32 * n < 2 ^ 63 := by
    calc u % 2 ^ 32 * n ≤ (2 ^ 32 - 1) * 2 ^ 31 := Nat.mul_le_mul (by omega) hn
      _ < 2 ^ 63 := by norm_num
  have hmul2 : u / 2 ^ 32 * n ≤ (2 ^ 32 - 1) * 2 ^ 31 := Nat.mul_le_mul (by omega) hn
  have e1 : (u % 2 ^ 32 * n) % 2 ^ 64 = u % 2 ^ 32 * n :=
    Nat.mod_eq_of_lt (lt_trans hmul1 (by norm_num))
  have e2 : asr64_32 (u % 2 ^ 32 * n) = u % 2 ^ 32 * n / 2 ^ 32 := by
    unfold asr64_32; rw [if_pos hmul1]
  have e3 : (u / 2 ^ 32 * n) % 2 ^ 64 = u / 2 ^ 32 * n :=
    Nat.mod_eq_of_lt (by omega)
  have hq : u % 2 ^ 32 * n / 2 ^ 32 < n := by
    rw [Nat.div_lt_iff_lt_mul (by norm_num : 0 < 2 ^ 32)]
    calc u % 2 ^ 32 * n < 2 ^ 32 * n := Nat.mul_lt_mul_of_pos_right hlo (by omega)
      _ = n * 2 ^ 32 := Nat.mul_comm _ _
  have hsum : u % 2 ^ 32 * n / 2 ^ 32 + u / 2 ^ 32 * n < 2 ^ 63 := by omega
  rw [e1, e2, e3]
  have e4 : (u % 2 ^ 32 * n / 2 ^ 32 + u / 2 ^ 32 * n) % 2 ^ 64 =
      u % 2 ^ 32 * n / 2 ^ 32 + u / 2 ^ 32 * n := Nat.mod_eq_of_lt (by omega)
  rw [e4]
  have e5 : asr64_32 (u % 2 ^ 32 * n / 2 ^ 32 + u / 2 ^ 32 * n) =
      (u % 2 ^ 32 * n / 2 ^ 32 + u / 2 ^ 32 * n) / 2 ^ 32 := by
    unfold asr64_32; rw [if_pos hsum]
  rw [e5]
  have hfin : (u % 2 ^ 32 * n / 2 ^ 32 + u / 2 ^ 32 * n) / 2 ^ 32 < n := by
    rw [Nat.div_lt_iff_lt_mul (by norm_num : 0 < 2 ^ 32)]
    have hb : u / 2 ^ 32 * n ≤ (2 ^ 32 - 1) * n := Nat.mul_le_mul (by omega) (le_refl n)
    have hc : (2 ^ 32 - 1) * n = 2 ^ 32 * n - n := by
      rw [Nat.sub_mul, Nat.one_mul]
    omega
  refine ⟨?_, hfin⟩
  unfold toInt32
  have hlt32 : (u % 2 ^ 32 * n / 2 ^ 32 + u / 2 ^ 32 * n) / 2 ^ 32 < 2 ^ 32 := by omega
  rw [Nat.mod_eq_of_lt hlt32, if_pos (by omega)]

/-- Claim C1 (counterexample): for `shards_count = 3 * 2^30 < 2^32` the claim
fails.  With `ignore_msb = 0` and the signed 64-bit token
`t = 3221225472 - 2^63` (so the remapped `u` is `3 * 2^30`, giving
`lo * n = 9 * 2^60 ≥ 2^63`), the code's arithmetic (sign-extending)
`mul1 >> 32` diverges from the reference's logical shift:
`shard_id` returns `-1` while the reference computation returns `0`, so the
result is neither equal to the reference nor inside `[0, n)`. -/
theorem shard_id_mismatch_at_large_shard_count :
    1 ≤ 3221225472 ∧ 3221225472 < 2 ^ 32
    ∧ -(2 ^ 63) ≤ ((3221225472 : Int) - 2 ^ 63) ∧ ((3221225472 : Int) - 2 ^ 63) < 2 ^ 63
    ∧ shard_id_code 0 3221225472 ((3221225472 : Int) - 2 ^ 63)
        ≠ ((shard_id_spec 0 3221225472 ((3221225472 : Int) - 2 ^ 63) : Nat) : Int)
    ∧ shard_id_code 0 3221225472 ((3221225472 : Int) - 2 ^ 63) = -1 := by
  refine ⟨by norm_num, by norm_num, by norm_num, by norm_num, by decide, by decide⟩

/-- Claim C1 (amended): the claim holds once the shard-count bound is
tightened from `n < 2^32` to `n ≤ 2^31` (the largest bound under which
`lo * n < 2^63`, so that the code's signed shifts agree with the reference's
logical shifts): for every signed 64-bit token `t`, every
`1 ≤ shards_count = n ≤ 2^31` and every non-negative `ignore_msb = m`,
`ShardingInfo::shard_id` equals the reference computation
(remap by `+2^63`, wrap-shift by `m`, split into 32-bit halves,
`((lo*n >> 32) + hi*n) >> 32`) and lies in `[0, n)`. -/
theorem shard_id_matches_reference (t : Int) (m n : Nat)
    (hn1 : 1 ≤ n) (hn : n ≤ 2 ^ 31) (ht1 : -(2 ^ 63) ≤ t) (ht2 : t < 2 ^ 63) :
    shard_id_code m n t = ((shard_id_spec m n t : Nat) : Int)
    ∧ 0 ≤ shard_id_code m n t ∧ shard_id_code m n t < (n : Int) := by
  have hu : (wrap64 (t + 2 ^ 63) * 2 ^ m) % 2 ^ 64 < 2 ^ 64 := Nat.mod_lt _ (by norm_num)
  obtain ⟨h1, h2⟩ := shard_core ((wrap64 (t + 2 ^ 63) * 2 ^ m) % 2 ^ 64) n hu hn1 hn
  unfold shard_id_code shard_id_spec
  simp only []
  refine ⟨h1, ?_, ?_⟩
  · rw [h1]; exact Int.ofNat_nonneg _
  · rw [h1]; exact_mod_cast h2

/-- Witness for `shard_id_matches_reference`: the concrete instance
`n = 4`, `m = 12`, `t = 0` of the spec's own pinned test
(`shard_id(0)` with 4 shards and 12 ignored bits). -/
theorem shard_id_matches_reference_witness :
    1 ≤ 4 ∧ 4 ≤ 2 ^ 31 ∧ -(2 ^ 63) ≤ (0 : Int) ∧ (0 : Int) < 2 ^ 63
    ∧ (shard_id_code 12 4 0 = ((shard_id_spec 12 4 0 : Nat) : Int)
       ∧ 0 ≤ shard_id_code 12 4 0 ∧ shard_id_code 12 4 0 < (4 : Int)) :=
  ⟨by norm_num, by norm_num, by norm_num, by norm_num,
    shard_id_matches_reference 0 12 4 (by norm_num) (by norm_num) (by norm_num) (by norm_num)⟩

/-! ### Parsing: `ShardingInfo::parse_sharding_info` -/

/-- `isspace` of the C locale, as consulted by `atoi`. -/
def isSpaceC (c : Char) : Bool :=
  c = ' ' || c = '\t' || c = '\n' || c = '\x0b' || c = '\x0c' || c = '\r'

/-- Decimal digit accumulator of `atoi`: consume digits, stop at the first
non-digit. -/
def digitsVal : List Char → Nat → Nat
  | [], acc => acc
  | c :: cs, acc => if c.isDigit then digitsVal cs (acc * 10 + (c.toNat - 48)) else acc

/-- `std::atoi` (as used by `ShardingInfo::parse_int`): skip leading
whitespace, accept one optional sign, consume decimal digits, 0 on garbage. -/
def atoiCore : List Char → Int
  | [] => 0
  | c :: cs =>
    if isSpaceC c then atoiCore cs
    else if c = '-' then -(digitsVal cs 0 : Int)
    else if c = '+' then (digitsVal cs 0 : Int)
    else if c.isDigit then (digitsVal (c :: cs) 0 : Int)
    else 0

def atoi (s : String) : Int := atoiCore s.data

def SCYLLA_SHARD_PARAM_KEY : String := "SCYLLA_SHARD"
def SCYLLA_NR_SHARDS_PARAM_KEY : String := "SCYLLA_NR_SHARDS"
def SCYLLA_PARTITIONER : String := "SCYLLA_PARTITIONER"
def SCYLLA_SHARDING_ALGORITHM : String := "SCYLLA_SHARDING_ALGORITHM"
def SCYLLA_SHARDING_IGNORE_MSB : String := "SCYLLA_SHARDING_IGNORE_MSB"
def SCYLLA_SHARD_AWARE_PORT : String := "SCYLLA_SHARD_AWARE_PORT"
def SCYLLA_SHARD_AWARE_PORT_SSL : String := "SCYLLA_SHARD_AWARE_PORT_SSL"

/-- The fields of `class ShardingInfo` (sharding_info.hpp).  `shards_count`
is a `size_t`, `sharding_ignore_MSB` an `int`, the ports optional `int`s. -/
structure ShardingInfo where
  shards_count : Nat
  partitioner : String
  sharding_algorithm : String
  sharding_ignore_MSB : Int
  shard_aware_port : Option Int
  shard_aware_port_ssl : Option Int
deriving DecidableEq

/-- `struct ConnectionShardingInfo` (sharding_info.hpp). -/
structure ConnectionShardingInfo where
  shard_id : Int
  sharding_info : ShardingInfo
deriving DecidableEq

/-- The C conversion `(size_t) x` of an `int` value: reduce modulo `2^64`. -/
def intToSizeT (x : Int) : Nat := (x % (2 ^ 64 : Int)).toNat

/-- `ShardingInfo::parse_string` (sharding_info.cpp:74-79): the value of a
key present with exactly one value, otherwise nullopt.  A `StringMultimap`
is modelled as the total function from keys to their value lists, an absent
key mapping to `[]` (so `params.count(key) == 0` and
`params.at(key).size() != 1` both collapse onto the non-singleton shapes). -/
def parse_string (params : String → List String) (key : String) : Option String :=
  match params key with
  | [v] => some v
  | _ => none

/-- `ShardingInfo::parse_int` (sharding_info.cpp:81-87): `parse_string`
then `std::atoi` — it fails only when the key is not a singleton, never on
malformed digits. -/
def parse_int (params : String → List String) (key : String) : Option Int :=
  (parse_string params key).map atoi

/-- `ShardingInfo::parse_sharding_info` (sharding_info.cpp:55-72). -/
def parse_sharding_info (params : String → List String) : Option ConnectionShardingInfo :=
  match parse_int params SCYLLA_SHARD_PARAM_KEY, parse_int params SCYLLA_NR_SHARDS_PARAM_KEY,
        parse_string params SCYLLA_PARTITIONER, parse_string params SCYLLA_SHARDING_ALGORITHM,
        parse_int params SCYLLA_SHARDING_IGNORE_MSB with
  | some sid, some sc, some p, some a, some msb =>
    if p = "org.apache.cassandra.dht.Murmur3Partitioner" ∧ a = "biased-token-round-robin" then
      some ⟨sid, ⟨intToSizeT sc, p, a, msb,
        parse_int params SCYLLA_SHARD_AWARE_PORT, parse_int params SCYLLA_SHARD_AWARE_PORT_SSL⟩⟩
    else none
  | _, _, _, _, _ => none

/-- Claim C3: `parse_sharding_info` returns a descriptor iff the shard-id,
shard-count, partitioner, algorithm and ignore-MSB keys are each present
with exactly one value, the partitioner value is
`"org.apache.cassandra.dht.Murmur3Partitioner"` and the algorithm value is
`"biased-token-round-robin"`; the two shard-aware-port keys do not appear
in the condition, so they are best-effort and may be absent without
affecting the result. -/
theorem parse_sharding_info_isSome_iff (params : String → List String) :
    (parse_sharding_info params).isSome ↔
      ((∃ v, params SCYLLA_SHARD_PARAM_KEY = [v])
       ∧ (∃ v, params SCYLLA_NR_SHARDS_PARAM_KEY = [v])
       ∧ params SCYLLA_PARTITIONER = ["org.apache.cassandra.dht.Murmur3Partitioner"]
       ∧ params SCYLLA_SHARDING_ALGORITHM = ["biased-token-round-robin"]
       ∧ (∃ v, params SCYLLA_SHARDING_IGNORE_MSB = [v])) := by
  unfold parse_sharding_info parse_int parse_string
  rcases h1 : params SCYLLA_SHARD_PARAM_KEY with _ | ⟨v1, _ | ⟨w1, t1⟩⟩ <;>
  rcases h2 : params SCYLLA_NR_SHARDS_PARAM_KEY with _ | ⟨v2, _ | ⟨w2, t2⟩⟩ <;>
  rcases h3 : params SCYLLA_PARTITIONER with _ | ⟨v3, _ | ⟨w3, t3⟩⟩ <;>
  rcases h4 : params SCYLLA_SHARDING_ALGORITHM with _ | ⟨v4, _ | ⟨w4, t4⟩⟩ <;>
  rcases h5 : params SCYLLA_SHARDING_IGNORE_MSB with _ | ⟨v5, _ | ⟨w5, t5⟩⟩ <;>
    simp_all

/-- A supported-options map whose required integer value for the
shard-count key is malformed (`"abc"`), all other required keys valid. -/
def malformedParams : String → List String := fun k =>
  if k = "SCYLLA_SHARD" then ["0"]
  else if k = "SCYLLA_NR_SHARDS" then ["abc"]
  else if k = "SCYLLA_PARTITIONER" then ["org.apache.cassandra.dht.Murmur3Partitioner"]
  else if k = "SCYLLA_SHARDING_ALGORITHM" then ["biased-token-round-robin"]
  else if k = "SCYLLA_SHARDING_IGNORE_MSB" then ["0"]
  else []

/-- Claim C4 (counterexample): with a non-numeric shard-count `"abc"`,
`parse_sharding_info` does NOT return "no descriptor" — `atoi` yields 0 and
a descriptor with `shards_count = 0` is constructed, so the claimed
invariant (every descriptor has positive `shards_count`) fails. -/
theorem parse_malformed_counterexample :
    parse_sharding_info malformedParams ≠ none
    ∧ (parse_sharding_info malformedParams).map (fun r => r.sharding_info.shards_count) = some 0
    ∧ atoi "abc" = 0 := by
  refine ⟨by decide, by decide, by decide⟩

/-- Claim C4 (amended): malformed integer values never cause rejection.
Whenever the five required keys are present as singletons and the
partitioner and algorithm match, `parse_sharding_info` returns a descriptor
whose integer fields are whatever `atoi` makes of the strings (0 for
non-numeric garbage, converted to `size_t` for the shard-count), so
descriptors with `shards_count = 0` can exist; "no descriptor" arises only
from a missing/non-singleton required key or a partitioner/algorithm
mismatch. -/
theorem parse_accepts_malformed_ints (params : String → List String) (vs vn vm : String)
    (h1 : params SCYLLA_SHARD_PARAM_KEY = [vs])
    (h2 : params SCYLLA_NR_SHARDS_PARAM_KEY = [vn])
    (h3 : params SCYLLA_PARTITIONER = ["org.apache.cassandra.dht.Murmur3Partitioner"])
    (h4 : params SCYLLA_SHARDING_ALGORITHM = ["biased-token-round-robin"])
    (h5 : params SCYLLA_SHARDING_IGNORE_MSB = [vm]) :
    parse_sharding_info params =
      some ⟨atoi vs, ⟨intToSizeT (atoi vn),
        "org.apache.cassandra.dht.Murmur3Partitioner", "biased-token-round-robin", atoi vm,
        parse_int params SCYLLA_SHARD_AWARE_PORT, parse_int params SCYLLA_SHARD_AWARE_PORT_SSL⟩⟩ := by
  unfold parse_sharding_info
  rw [show parse_int params SCYLLA_SHARD_PARAM_KEY = some (atoi vs) by
        simp [parse_int, parse_string, h1],
      show parse_int params SCYLLA_NR_SHARDS_PARAM_KEY = some (atoi vn) by
        simp [parse_int, parse_string, h2],
      show parse_string params SCYLLA_PARTITIONER = some "org.apache.cassandra.dht.Murmur3Partitioner" by
        simp [parse_string, h3],
      show parse_string params SCYLLA_SHARDING_ALGORITHM = some "biased-token-round-robin" by
        simp [parse_string, h4],
      show parse_int params SCYLLA_SHARDING_IGNORE_MSB = some (atoi vm) by
        simp [parse_int, parse_string, h5]]
  simp

/-- Witness for `parse_accepts_malformed_ints` at the concrete malformed
map: the parse succeeds and carries `shards_count = 0`. -/
theorem parse_accepts_malformed_ints_witness :
    malformedParams SCYLLA_SHARD_PARAM_KEY = ["0"]
    ∧ malformedParams SCYLLA_NR_SHARDS_PARAM_KEY = ["abc"]
    ∧ parse_sharding_info malformedParams =
      some ⟨atoi "0", ⟨intToSizeT (atoi "abc"),
        "org.apache.cassandra.dht.Murmur3Partitioner", "biased-token-round-robin", atoi "0",
        parse_int malformedParams SCYLLA_SHARD_AWARE_PORT,
        parse_int malformedParams SCYLLA_SHARD_AWARE_PORT_SSL⟩⟩ :=
  ⟨by decide, by decide,
    parse_accepts_malformed_ints malformedParams "0" "abc" "0"
      (by decide) (by decide) (by decide) (by decide) (by decide)⟩
/-! ### The `ConnectionPool` state machine (connection_pool.cpp) -/

/-- `ShardingInfo::shard_id` applied to a parsed descriptor (the `int`
member `sharding_ignore_MSB_` is non-negative for parsed descriptors; a
negative value would be undefined C++, modelled by `toNat`). -/
def ShardingInfo.shard_id (si : ShardingInfo) (t : Int) : Int :=
  shard_id_code si.sharding_ignore_MSB.toNat si.shards_count t

/-- `ConnectionPool`'s `CloseState` (connection_pool.hpp). -/
inductive CloseState
  | OPEN | CLOSING | WAITING_FOR_CONNECTIONS | CLOSED
deriving DecidableEq

/-- `ConnectionPool`'s `NotifyState`. -/
inductive NotifyState
  | NEW | UP | DOWN | CRITICAL
deriving DecidableEq

/-- The listener callbacks the pool can emit upward
(`ConnectionPoolListener`), recorded as a trace. -/
inductive PoolEvent
  | onPoolUp | onPoolDown | onPoolCriticalError | onPoolClose
deriving DecidableEq

/-- A `PooledConnection`: `cid` models object identity (the pointer),
`shard` its immutable `shard_id()`, `is_closing` its `is_closing()` flag,
`inflight` its `inflight_request_count()`. -/
structure PooledConn where
  cid : Nat
  shard : Nat
  is_closing : Bool
  inflight : Nat
deriving DecidableEq

/-- A `ReconnectionSchedule`: `sid` models the object's identity, `calls`
the number of `next_delay_ms()` calls made so far (the exponential-backoff
step). -/
structure Sched where
  sid : Nat
  calls : Nat
deriving DecidableEq

/-- A `DelayedConnector`: `kid` models the connector pointer, with its
optional desired shard and cancellation flag. -/
structure Connector where
  kid : Nat
  desired_shard_num : Option Nat
  canceled : Bool
deriving DecidableEq

/-- The state of one `ConnectionPool` (connection_pool.hpp/.cpp):
the host's sharding descriptor, `num_connections_per_shard_`,
`connections_by_shard_`, `pending_connections_`,
`reconnection_schedules_` (keyed by connector identity), the two state
dimensions, the pool's self-reference (`inc_ref`/`dec_ref`), the trace of
listener events emitted so far, and three fresh-identity counters for new
connectors, schedules and connections. -/
structure PoolState where
  sharding : Option ShardingInfo
  num_connections_per_shard : Nat
  connections_by_shard : List (List PooledConn)
  pending_connections : List Connector
  reconnection_schedules : List (Nat × Sched)
  close_state : CloseState
  notify_state : NotifyState
  self_ref : Bool
  events : List PoolEvent
  next_kid : Nat
  next_sid : Nat
  next_cid : Nat
deriving DecidableEq

/-- `CASS_INT64_MIN`, the sentinel "no token" value. -/
def CASS_INT64_MIN : Int := -(2 ^ 63)

/-- `least_busy_comp` (connection_pool.cpp:30-39): closed connections are
never the least busy; otherwise compare inflight counts. -/
def least_busy_comp (a b : PooledConn) : Bool :=
  if a.is_closing then false
  else if b.is_closing then true
  else a.inflight < b.inflight

/-- One iteration of the all-slots loop of `find_least_busy`
(connection_pool.cpp:128-134): skip closing connections, otherwise
`least_busy = least_busy ? std::min(least_busy, conn, least_busy_comp) : conn`
(`std::min(a, b, comp)` is `comp(b, a) ? b : a`, keeping the earlier element
on ties). -/
def scan_step (least_busy : Option PooledConn) (conn : PooledConn) : Option PooledConn :=
  if conn.is_closing then least_busy
  else match least_busy with
    | none => some conn
    | some lb => some (if least_busy_comp conn lb then conn else lb)

/-- The all-slots search of `find_least_busy` (the
`token == CASS_INT64_MIN || !sharding_info()` branch). -/
def scan_all (slots : List (List PooledConn)) : Option PooledConn :=
  slots.foldl (fun least_busy shard_pool => shard_pool.foldl scan_step least_busy) none

/-- One `std::min_element` step with `least_busy_comp`. -/
def min_el_step (best c : PooledConn) : PooledConn :=
  if least_busy_comp c best then c else best

/-- `std::min_element(begin, end, least_busy_comp)`: `none` for the empty
range (`it == end`), else the first element no later element compares
strictly less than. -/
def min_element : List PooledConn → Option PooledConn
  | [] => none
  | x :: xs => some (xs.foldl min_el_step x)


/-- `ConnectionPool::find_least_busy` (connection_pool.cpp:123-146).  The
recursive fallback call `find_least_busy(CASS_INT64_MIN)` is inlined as
`scan_all` (which is exactly its value, by the first branch).  The unchecked
C++ slot indexing by `shard_id(token)` is modelled with `getD`. -/
def find_least_busy (st : PoolState) (token : Int) : Option PooledConn :=
  if token = CASS_INT64_MIN then scan_all st.connections_by_shard
  else match st.sharding with
    | none => scan_all st.connections_by_shard
    | some si =>
      match min_element (st.connections_by_shard.getD (si.shard_id token).toNat []) with
      | none => scan_all st.connections_by_shard
      | some best => if best.is_closing then scan_all st.connections_by_shard else some best

/- spec side -/

/-- Modelled from the spec (claim C2): keep the earlier connection unless
the new one has a strictly lower inflight count (stable tie-breaking). -/
def spec_step (best : Option PooledConn) (c : PooledConn) : Option PooledConn :=
  match best with
  | none => some c
  | some b => some (if c.inflight < b.inflight then c else b)

/-- Modelled from the spec: the first connection attaining the minimum
inflight count, or none for an empty list. -/
def firstMinInflight (l : List PooledConn) : Option PooledConn := l.foldl spec_step none

/-- The non-closing connections of a slot, in stable order. -/
def nonClosingOf (l : List PooledConn) : List PooledConn := l.filter (fun c => !c.is_closing)

/-- Modelled from the spec: "search all shard slots for the single
connection with the lowest inflight_request_count among non-closing
connections". -/
def spec_least_busy_all (slots : List (List PooledConn)) : Option PooledConn :=
  firstMinInflight (nonClosingOf slots.flatten)

/-- Modelled from the spec (claim C2): sentinel token or no descriptor ⇒
all-slots search; otherwise the minimum-inflight non-closing connection of
slot `shard_id(token)`, falling back to the all-slots search when that slot
has no non-closing connection. -/
def spec_find_least_busy (st : PoolState) (token : Int) : Option PooledConn :=
  if token = CASS_INT64_MIN then spec_least_busy_all st.connections_by_shard
  else match st.sharding with
    | none => spec_least_busy_all st.connections_by_shard
    | some si =>
      match firstMinInflight (nonClosingOf (st.connections_by_shard.getD (si.shard_id token).toNat [])) with
      | some c => some c
      | none => spec_least_busy_all st.connections_by_shard

/- lemmas -/

def spec2_step (best c : PooledConn) : PooledConn :=
  if c.inflight < best.inflight then c else best

lemma foldl_spec_step_some (l : List PooledConn) (b : PooledConn) :
    l.foldl spec_step (some b) = some (l.foldl spec2_step b) := by
  induction l generalizing b with
  | nil => rfl
  | cons c cs ih => simp [List.foldl_cons, spec_step, spec2_step, ih]

lemma foldl_scan_step_eq (l : List PooledConn) (acc : Option PooledConn)
    (hinv : ∀ b, acc = some b → b.is_closing = false) :
    l.foldl scan_step acc = (nonClosingOf l).foldl spec_step acc := by
  induction l generalizing acc with
  | nil => rfl
  | cons c cs ih =>
    rcases hc : c.is_closing with _ | _
    · -- c not closing
      have hstep : scan_step acc c = spec_step acc c := by
        cases acc with
        | none => simp [scan_step, spec_step, hc]
        | some lb =>
          have hlb : lb.is_closing = false := hinv lb rfl
          simp [scan_step, spec_step, least_busy_comp, hc, hlb]
      rw [List.foldl_cons, hstep]
      have : nonClosingOf (c :: cs) = c :: nonClosingOf cs := by
        simp [nonClosingOf, hc]
      rw [this, List.foldl_cons]
      apply ih
      intro b hb
      cases acc with
      | none => simp [spec_step] at hb; subst hb; exact hc
      | some lb =>
        have hlb : lb.is_closing = false := hinv lb rfl
        simp [spec_step] at hb
        split at hb <;> simp_all
    · -- c closing
      have hstep : scan_step acc c = acc := by simp [scan_step, hc]
      rw [List.foldl_cons, hstep]
      have : nonClosingOf (c :: cs) = nonClosingOf cs := by simp [nonClosingOf, hc]
      rw [this]
      exact ih acc hinv

lemma scan_all_eq_spec (slots : List (List PooledConn)) :
    scan_all slots = spec_least_busy_all slots := by
  unfold scan_all spec_least_busy_all firstMinInflight
  rw [← List.foldl_flatten scan_step none slots]
  exact foldl_scan_step_eq _ none (by intro b hb; cases hb)

lemma foldl_min_el_step_nonclosing (xs : List PooledConn) (x : PooledConn)
    (hx : x.is_closing = false) :
    xs.foldl min_el_step x = (nonClosingOf xs).foldl spec2_step x := by
  induction xs generalizing x with
  | nil => rfl
  | cons y ys ih =>
    rcases hy : y.is_closing with _ | _
    · have hstep : min_el_step x y = spec2_step x y := by
        simp [min_el_step, spec2_step, least_busy_comp, hx, hy]
      have hkeep : (spec2_step x y).is_closing = false := by
        unfold spec2_step; split <;> assumption
      rw [List.foldl_cons, hstep]
      have : nonClosingOf (y :: ys) = y :: nonClosingOf ys := by simp [nonClosingOf, hy]
      rw [this, List.foldl_cons]
      exact ih _ hkeep
    · have hstep : min_el_step x y = x := by
        simp [min_el_step, least_busy_comp, hy, hx]
      rw [List.foldl_cons, hstep]
      have : nonClosingOf (y :: ys) = nonClosingOf ys := by simp [nonClosingOf, hy]
      rw [this]
      exact ih _ hx

lemma foldl_spec2_step_nonclosing (ys : List PooledConn) (b : PooledConn)
    (hb : b.is_closing = false) (hys : ∀ y ∈ ys, y.is_closing = false) :
    (ys.foldl spec2_step b).is_closing = false := by
  induction ys generalizing b with
  | nil => exact hb
  | cons y ys ih =>
    rw [List.foldl_cons]
    apply ih
    · unfold spec2_step; split
      · exact hys y (by simp)
      · exact hb
    · intro z hz; exact hys z (by simp [hz])

lemma foldl_min_el_step_closing (xs : List PooledConn) (x : PooledConn)
    (hx : x.is_closing = true) :
    (nonClosingOf xs = [] ∧ xs.foldl min_el_step x = x) ∨
    (∃ c cs', nonClosingOf xs = c :: cs' ∧ c.is_closing = false ∧
      xs.foldl min_el_step x = cs'.foldl spec2_step c) := by
  induction xs generalizing x with
  | nil => left; exact ⟨rfl, rfl⟩
  | cons y ys ih =>
    rcases hy : y.is_closing with _ | _
    · right
      have hstep : min_el_step x y = y := by
        simp [min_el_step, least_busy_comp, hy, hx]
      refine ⟨y, nonClosingOf ys, by simp [nonClosingOf, hy], hy, ?_⟩
      rw [List.foldl_cons, hstep]
      exact foldl_min_el_step_nonclosing ys y hy
    · have hstep : min_el_step x y = x := by
        simp [min_el_step, least_busy_comp, hy]
      have hnc : nonClosingOf (y :: ys) = nonClosingOf ys := by simp [nonClosingOf, hy]
      rw [List.foldl_cons, hstep, hnc]
      exact ih x hx

lemma mem_nonClosingOf {l : List PooledConn} {c : PooledConn} (h : c ∈ nonClosingOf l) :
    c.is_closing = false := by
  unfold nonClosingOf at h
  have := List.of_mem_filter h
  simpa using this

/-- Claim C2: `find_least_busy` coincides with the spec's description for
every pool state and token: the sentinel/no-descriptor call returns the
lowest-inflight non-closing connection over all slots (none if none),
otherwise the minimum-inflight non-closing connection of slot
`shard_id(token)` with fallback to the all-slots search when the slot is
empty or its best candidate is closing; ties resolve by stable iteration
order and any non-closing connection beats any closing one (both encoded in
the spec-side functions `spec_step`/`nonClosingOf`). -/
theorem find_least_busy_eq_spec (st : PoolState) (token : Int) :
    find_least_busy st token = spec_find_least_busy st token := by
  unfold find_least_busy spec_find_least_busy
  split
  · exact scan_all_eq_spec _
  · cases st.sharding with
    | none => exact scan_all_eq_spec _
    | some si =>
      simp only []
      rcases hl : st.connections_by_shard.getD (si.shard_id token).toNat [] with _ | ⟨x, xs⟩
      · simp [min_element, firstMinInflight, nonClosingOf, scan_all_eq_spec]
      · rcases hx : x.is_closing with _ | _
        · -- head not closing
          have h1 : min_element (x :: xs) = some ((nonClosingOf xs).foldl spec2_step x) := by
            simp [min_element, foldl_min_el_step_nonclosing xs x hx]
          have h2 : firstMinInflight (nonClosingOf (x :: xs)) =
              some ((nonClosingOf xs).foldl spec2_step x) := by
            have : nonClosingOf (x :: xs) = x :: nonClosingOf xs := by simp [nonClosingOf, hx]
            rw [this]
            unfold firstMinInflight
            rw [List.foldl_cons]
            show (nonClosingOf xs).foldl spec_step (spec_step none x) = _
            rw [show spec_step none x = some x from rfl]
            exact foldl_spec_step_some _ _
          have h3 : ((nonClosingOf xs).foldl spec2_step x).is_closing = false :=
            foldl_spec2_step_nonclosing _ _ hx (fun y hy => mem_nonClosingOf hy)
          rw [h1, h2]
          simp [h3]
        · -- head closing
          rcases foldl_min_el_step_closing xs x hx with ⟨hnc, hfold⟩ | ⟨c, cs', hnc, hc, hfold⟩
          · have h1 : min_element (x :: xs) = some x := by simp [min_element, hfold]
            have h2 : firstMinInflight (nonClosingOf (x :: xs)) = none := by
              have hstep : nonClosingOf (x :: xs) = nonClosingOf xs := by
                simp [nonClosingOf, hx]
              rw [hstep, hnc]; rfl
            rw [h1, h2]
            simp [hx, scan_all_eq_spec]
          · have h1 : min_element (x :: xs) = some (cs'.foldl spec2_step c) := by
              simp [min_element, hfold]
            have h2 : firstMinInflight (nonClosingOf (x :: xs)) =
                some (cs'.foldl spec2_step c) := by
              have hstep : nonClosingOf (x :: xs) = nonClosingOf xs := by
                simp [nonClosingOf, hx]
              rw [hstep, hnc]
              unfold firstMinInflight
              rw [List.foldl_cons]
              rw [show spec_step none c = some c from rfl]
              exact foldl_spec_step_some _ _
            have h3 : (cs'.foldl spec2_step c).is_closing = false := by
              apply foldl_spec2_step_nonclosing _ _ hc
              intro y hy
              apply mem_nonClosingOf (l := xs)
              rw [hnc]
              simp [hy]
            rw [h1, h2]
            simp [h3]

/-- `ConnectionPool::has_connections` (connection_pool.cpp:148-151). -/
def has_connections (st : PoolState) : Bool :=
  st.connections_by_shard.any (fun v => !v.isEmpty)

/-- `ConnectionPool::notify_up_or_down` (connection_pool.cpp:215-223). -/
def notify_up_or_down (st : PoolState) : PoolState :=
  if (st.notify_state = .NEW ∨ st.notify_state = .UP) ∧ has_connections st = false then
    { st with notify_state := .DOWN, events := st.events ++ [.onPoolDown] }
  else if (st.notify_state = .NEW ∨ st.notify_state = .DOWN) ∧ has_connections st = true then
    { st with notify_state := .UP, events := st.events ++ [.onPoolUp] }
  else st

/-- `ConnectionPool::notify_critical_error` (connection_pool.cpp:225-230). -/
def notify_critical_error (st : PoolState) : PoolState :=
  if st.notify_state ≠ .CRITICAL then
    { st with notify_state := .CRITICAL, events := st.events ++ [.onPoolCriticalError] }
  else st

/-- `si && (si->shard_aware_port() || si->shard_aware_port_ssl())`. -/
def shard_aware_port_advertised (st : PoolState) : Bool :=
  match st.sharding with
  | some si => si.shard_aware_port.isSome || si.shard_aware_port_ssl.isSome
  | none => false

/-- `ConnectionPool::schedule_reconnect` (connection_pool.cpp:232-260):
build a fresh connector, reuse the given schedule or create a new one,
advance it by one `next_delay_ms()` call, set the connector's desired shard
only when one was requested and a shard-aware port is advertised, then
register schedule and connector. -/
def schedule_reconnect (st : PoolState) (schedule : Option Sched)
    (desired_shard_num : Option Nat) : PoolState :=
  let stA := if schedule.isSome then st else { st with next_sid := st.next_sid + 1 }
  let sched0 : Sched := match schedule with
    | some s => s
    | none => { sid := st.next_sid, calls := 0 }
  let sched : Sched := { sched0 with calls := sched0.calls + 1 }
  let desired : Option Nat :=
    if desired_shard_num.isSome && shard_aware_port_advertised st then desired_shard_num else none
  let connector : Connector := { kid := stA.next_kid, desired_shard_num := desired, canceled := false }
  { stA with
    reconnection_schedules := stA.reconnection_schedules ++ [(connector.kid, sched)],
    pending_connections := stA.pending_connections ++ [connector],
    next_kid := stA.next_kid + 1 }

/-- `ConnectionPool::maybe_closed` (connection_pool.cpp:288-301): when
waiting with no connection and no pending attempt, become CLOSED, emit
`on_pool_down` only from the UP notify state, emit `on_close`, release the
self-reference (`dec_ref`). -/
def maybe_closed (st : PoolState) : PoolState :=
  if st.close_state = .WAITING_FOR_CONNECTIONS ∧ has_connections st = false
      ∧ st.pending_connections = [] then
    let evs : List PoolEvent :=
      (st.events ++ (if st.notify_state = .UP then [PoolEvent.onPoolDown] else []))
        ++ [PoolEvent.onPoolClose]
    { st with close_state := .CLOSED, events := evs, self_ref := false }
  else st

/-- The `internal_close` loop closing every wrapped connection (on a copy
of the container). -/
def close_all_connections (st : PoolState) : PoolState :=
  { st with connections_by_shard :=
      st.connections_by_shard.map (fun v => v.map (fun c => { c with is_closing := true })) }

/-- The `internal_close` loop canceling every pending connector (on a
copy). -/
def cancel_pending (st : PoolState) : PoolState :=
  { st with pending_connections := st.pending_connections.map (fun k => { k with canceled := true }) }

/-- `ConnectionPool::internal_close` (connection_pool.cpp:262-286). -/
def internal_close (st : PoolState) : PoolState :=
  if st.close_state = .OPEN then
    let st1 := { st with close_state := .CLOSING }
    let st2 := close_all_connections st1
    let st3 := cancel_pending st2
    let st4 := { st3 with close_state := .WAITING_FOR_CONNECTIONS }
    maybe_closed st4
  else st

/-- `ConnectionPool::add_connection` (connection_pool.cpp:206-213):
push the connection onto its shard's slot (unchecked index, modelled with
`set`/`getD`). -/
def add_connection (st : PoolState) (c : PooledConn) : PoolState :=
  { st with connections_by_shard :=
      st.connections_by_shard.set c.shard ((st.connections_by_shard.getD c.shard []) ++ [c]) }

/-- The erase-remove of `ConnectionPool::close_connection`
(connection_pool.cpp:189-191). -/
def remove_conn (st : PoolState) (c : PooledConn) : PoolState :=
  let slot := (st.connections_by_shard.getD c.shard []).filter (fun x => x.cid ≠ c.cid)
  { st with connections_by_shard := st.connections_by_shard.set c.shard slot }

/-- `ConnectionPool::close_connection` (connection_pool.cpp:185-204),
without the metrics/flush-set bookkeeping the claims do not mention. -/
def close_connection (st : PoolState) (c : PooledConn) : PoolState :=
  let st1 := remove_conn st c
  if st1.close_state ≠ .OPEN then maybe_closed st1
  else schedule_reconnect (notify_up_or_down st1) none (some c.shard)

/-- The four outcomes a `DelayedConnector` can report to `on_reconnect`:
`is_ok()`, `is_canceled()`, a transient error, or `is_critical_error()`.
A successful connector reports the shard the server actually placed it
on. -/
inductive ConnectorOutcome
  | ok (reported_shard : Nat)
  | canceled
  | transientError
  | criticalError
deriving DecidableEq

/-- `reconnection_schedules_.find(connector)` (asserted to succeed in the
code). -/
def lookup_schedule : List (Nat × Sched) → Nat → Option Sched
  | [], _ => none
  | (k, s) :: rest, kid => if k = kid then some s else lookup_schedule rest kid

/-- The erasure prologue of `ConnectionPool::on_reconnect`: remove the
finished connector from `pending_connections_` and take its schedule out of
`reconnection_schedules_` (the `ScopedPtr` now owns it). -/
def erase_connector (st : PoolState) (kid : Nat) : PoolState :=
  { st with
    pending_connections := st.pending_connections.filter (fun k => k.kid ≠ kid),
    reconnection_schedules := st.reconnection_schedules.filter (fun p => p.1 ≠ kid) }

/-- `ConnectionPool::on_reconnect` (connection_pool.cpp:303-346).  The
assert that a schedule exists is modelled by `getD` (theorems supply the
schedule through a hypothesis).  Closing the rejected new connection has no
pool-state effect because it was never added. -/
def on_reconnect (st : PoolState) (connector : Connector) (outcome : ConnectorOutcome) : PoolState :=
  let sched : Sched := (lookup_schedule st.reconnection_schedules connector.kid).getD ⟨0, 0⟩
  let st1 := erase_connector st connector.kid
  if st1.close_state ≠ .OPEN then maybe_closed st1
  else
    match outcome with
    | .ok reported_shard =>
      if st1.connections_by_shard.length > reported_shard ∧
          (st1.connections_by_shard.getD reported_shard []).length < st1.num_connections_per_shard then
        let conn : PooledConn := ⟨st1.next_cid, reported_shard, false, 0⟩
        notify_up_or_down (add_connection { st1 with next_cid := st1.next_cid + 1 } conn)
      else
        schedule_reconnect st1 (some sched) connector.desired_shard_num
    | .canceled => st1
    | .transientError => schedule_reconnect st1 (some sched) connector.desired_shard_num
    | .criticalError => internal_close (notify_critical_error st1)

/-- The constructor's placement loop (connection_pool.cpp:94-104): skip
closing connections; otherwise read `connections_by_shard_[shard_id()]`
WITHOUT a bounds check — an out-of-range shard makes that read undefined
behaviour, modelled as `none` — and place the connection if the slot has
room, else close it (no pool-state effect). -/
def placeConns : PoolState → List PooledConn → Option PoolState
  | st, [] => some st
  | st, c :: cs =>
    if c.is_closing then placeConns st cs
    else if c.shard < st.connections_by_shard.length then
      if (st.connections_by_shard.getD c.shard []).length < st.num_connections_per_shard then
        placeConns (add_connection st c) cs
      else
        placeConns st cs
    else
      none

/-- The constructor's inner reconnect-scheduling loop for one shard
(connection_pool.cpp:111-119): port-based shard awareness requests the
shard, otherwise a plain reconnect. -/
def fill_shard (st : PoolState) (shard_num : Nat) : Nat → PoolState
  | 0 => st
  | k + 1 =>
    fill_shard
      (schedule_reconnect st none
        (if shard_aware_port_advertised st then some shard_num else none))
      shard_num k

/-- The constructor's outer loop over all shard slots
(connection_pool.cpp:109-120), scheduling one reconnect per missing
connection (`needed` is non-positive when the slot is over-full). -/
def fill_slots (st : PoolState) : PoolState :=
  (List.range st.connections_by_shard.length).foldl
    (fun s shard_num =>
      fill_shard s shard_num
        (s.num_connections_per_shard - (s.connections_by_shard.getD shard_num []).length))
    st

/-- `ConnectionPool::ConnectionPool` (connection_pool.cpp:64-121): size the
slot vector (`shards_count` slots when a descriptor exists, else one),
derive `num_connections_per_shard_` as
`num_connections_per_host / hosts_shard_cnt + (… % hosts_shard_cnt ? 1 : 0)`
— a division by zero, hence undefined behaviour before the placement loop,
when a descriptor announces zero shards (modelled as `none`) — then place
the supplied connections, evaluate the initial notify state, and schedule
reconnects for every under-filled slot.  The other `none` case is the
placement loop's unchecked slot read going out of bounds. -/
def ctor_initial_state (sharding : Option ShardingInfo) (per_shard slots_len : Nat) :
    PoolState := {
  sharding := sharding,
  num_connections_per_shard := per_shard,
  connections_by_shard := List.replicate slots_len [],
  pending_connections := [],
  reconnection_schedules := [],
  close_state := .OPEN,
  notify_state := .NEW,
  self_ref := true,
  events := [],
  next_kid := 0,
  next_sid := 0,
  next_cid := 0 }

/-- The tail of the constructor: the placement loop, the initial
`notify_up_or_down()` call, and the reconnect-scheduling loops. -/
def mk_pool_core (st0 : PoolState) (initial : List PooledConn) : Option PoolState :=
  (placeConns st0 initial).map (fun st1 => fill_slots (notify_up_or_down st1))

def mk_pool (initial : List PooledConn) :
    Option ShardingInfo → Nat → Option PoolState
  | some si, num_connections_per_host =>
    if si.shards_count = 0 then none
    else
      mk_pool_core
        (ctor_initial_state (some si)
          (num_connections_per_host / si.shards_count
            + (if num_connections_per_host % si.shards_count ≠ 0 then 1 else 0))
          si.shards_count)
        initial
  | none, num_connections_per_host =>
    mk_pool_core (ctor_initial_state none num_connections_per_host 1) initial

lemma list_isEmpty_map {α β : Type} (f : α → β) (l : List α) :
    (l.map f).isEmpty = l.isEmpty := by
  cases l <;> rfl

lemma has_connections_close_all (st : PoolState) :
    has_connections (close_all_connections st) = has_connections st := by
  unfold has_connections close_all_connections
  simp only [List.any_map, Function.comp_def, list_isEmpty_map]

lemma maybe_closed_close_state (st : PoolState) :
    (maybe_closed st).close_state = st.close_state ∨
    ((maybe_closed st).close_state = .CLOSED ∧ st.close_state = .WAITING_FOR_CONNECTIONS) := by
  unfold maybe_closed
  split
  · rename_i h
    right
    exact ⟨rfl, h.1⟩
  · left; rfl

lemma maybe_closed_connections (s : PoolState) :
    (maybe_closed s).connections_by_shard = s.connections_by_shard := by
  unfold maybe_closed; split <;> rfl

lemma maybe_closed_pending (s : PoolState) :
    (maybe_closed s).pending_connections = s.pending_connections := by
  unfold maybe_closed; split <;> rfl

lemma maybe_closed_notify (s : PoolState) :
    (maybe_closed s).notify_state = s.notify_state := by
  unfold maybe_closed; split <;> rfl

lemma internal_close_not_open (st : PoolState) (h : ¬st.close_state = .OPEN) :
    internal_close st = st := by
  unfold internal_close; rw [if_neg h]

/-- The state just before the final `maybe_closed()` call of
`internal_close`: all wrapped connections closed, all pending connectors
canceled, close state `WAITING_FOR_CONNECTIONS`. -/
def closing_stage (st : PoolState) : PoolState :=
  { cancel_pending (close_all_connections { st with close_state := .CLOSING })
    with close_state := .WAITING_FOR_CONNECTIONS }

lemma internal_close_open (st : PoolState) (h : st.close_state = .OPEN) :
    internal_close st = maybe_closed (closing_stage st) := by
  unfold internal_close closing_stage; rw [if_pos h]

lemma closing_stage_close_state (st : PoolState) :
    (closing_stage st).close_state = .WAITING_FOR_CONNECTIONS := rfl

lemma closing_stage_connections (st : PoolState) :
    (closing_stage st).connections_by_shard =
      st.connections_by_shard.map (fun v => v.map (fun c => { c with is_closing := true })) := rfl

lemma closing_stage_pending (st : PoolState) :
    (closing_stage st).pending_connections =
      st.pending_connections.map (fun k => { k with canceled := true }) := rfl

lemma closing_stage_notify (st : PoolState) :
    (closing_stage st).notify_state = st.notify_state := rfl

lemma closing_stage_has_connections (st : PoolState) :
    has_connections (closing_stage st) = has_connections st := by
  unfold has_connections
  rw [closing_stage_connections]
  simp only [List.any_map, Function.comp_def, list_isEmpty_map]

/-- Claim C6: `close()` is idempotent — a second `internal_close` has no
further effect, and any call on a non-OPEN pool is a no-op; the first call
from OPEN marks every wrapped connection closing, cancels every pending
connector, and lands in WAITING_FOR_CONNECTIONS (or directly CLOSED when
nothing remains); the pool reaches CLOSED exactly when it is waiting with
no live connection and no pending attempt, at which point it emits DOWN
only if the notify state is UP, then `on_close`, and releases its
self-reference; once CLOSED, `maybe_closed` and `internal_close` are
no-ops, so `on_close` fires exactly once. -/
theorem close_is_idempotent (st : PoolState) :
    (internal_close (internal_close st) = internal_close st)
    ∧ (st.close_state ≠ .OPEN → internal_close st = st)
    ∧ (st.close_state = .OPEN →
        (∀ v ∈ (internal_close st).connections_by_shard, ∀ c ∈ v, c.is_closing = true)
        ∧ (∀ k ∈ (internal_close st).pending_connections, k.canceled = true)
        ∧ (internal_close st).close_state =
            (if has_connections st = false ∧ st.pending_connections = []
             then CloseState.CLOSED else CloseState.WAITING_FOR_CONNECTIONS))
    ∧ (st.close_state = .WAITING_FOR_CONNECTIONS →
        ((maybe_closed st).close_state = .CLOSED ↔
          (has_connections st = false ∧ st.pending_connections = [])))
    ∧ (st.close_state = .WAITING_FOR_CONNECTIONS ∧ has_connections st = false
        ∧ st.pending_connections = [] →
        (maybe_closed st).events =
          (st.events ++ (if st.notify_state = .UP then [PoolEvent.onPoolDown] else []))
            ++ [PoolEvent.onPoolClose]
        ∧ (maybe_closed st).self_ref = false)
    ∧ (st.close_state = .CLOSED → maybe_closed st = st ∧ internal_close st = st) := by
  refine ⟨?_, internal_close_not_open st, ?_, ?_, ?_, ?_⟩
  · -- idempotence
    by_cases h : st.close_state = .OPEN
    · apply internal_close_not_open
      rw [internal_close_open st h]
      rcases maybe_closed_close_state (closing_stage st) with h1 | h1
      · rw [h1, closing_stage_close_state]; intro hc; cases hc
      · rw [h1.1]; intro hc; cases hc
    · simp only [internal_close_not_open st h]
  · -- effect of the first call from OPEN
    intro h
    rw [internal_close_open st h]
    refine ⟨?_, ?_, ?_⟩
    · intro v hv c hc
      rw [maybe_closed_connections, closing_stage_connections] at hv
      simp only [List.mem_map] at hv
      obtain ⟨v0, hv0, rfl⟩ := hv
      simp only [List.mem_map] at hc
      obtain ⟨c0, hc0, rfl⟩ := hc
      rfl
    · intro k hk
      rw [maybe_closed_pending, closing_stage_pending] at hk
      simp only [List.mem_map] at hk
      obtain ⟨k0, hk0, rfl⟩ := hk
      rfl
    · by_cases hcase : has_connections st = false ∧ st.pending_connections = []
      · rw [if_pos hcase]
        unfold maybe_closed
        rw [if_pos ⟨closing_stage_close_state st,
          by rw [closing_stage_has_connections]; exact hcase.1,
          by rw [closing_stage_pending, hcase.2]; rfl⟩]
      · rw [if_neg hcase]
        unfold maybe_closed
        rw [if_neg ?_]
        · exact closing_stage_close_state st
        · intro ⟨_, h2, h3⟩
          rw [closing_stage_has_connections] at h2
          rw [closing_stage_pending] at h3
          exact hcase ⟨h2, List.map_eq_nil_iff.mp h3⟩
  · -- terminal condition iff
    intro h
    unfold maybe_closed
    split
    · rename_i hcond
      exact ⟨fun _ => ⟨hcond.2.1, hcond.2.2⟩, fun _ => rfl⟩
    · rename_i hcond
      constructor
      · intro hc
        rw [h] at hc
        cases hc
      · intro ⟨ha, hb⟩
        exact absurd ⟨h, ha, hb⟩ hcond
  · -- DOWN-if-UP then on_close, self reference released
    intro ⟨h1, h2, h3⟩
    unfold maybe_closed
    rw [if_pos ⟨h1, h2, h3⟩]
    exact ⟨rfl, rfl⟩
  · -- CLOSED is terminal
    intro h
    constructor
    · unfold maybe_closed
      rw [if_neg]
      intro ⟨hc, _⟩
      rw [h] at hc
      cases hc
    · apply internal_close_not_open
      rw [h]
      intro hc
      cases hc

def upDownCount (es : List PoolEvent) : Nat :=
  es.countP (fun e => e = PoolEvent.onPoolUp || e = PoolEvent.onPoolDown)

def critCount (es : List PoolEvent) : Nat :=
  es.countP (fun e => e = PoolEvent.onPoolCriticalError)

lemma schedule_reconnect_events (st : PoolState) (s : Option Sched) (d : Option Nat) :
    (schedule_reconnect st s d).events = st.events := by
  unfold schedule_reconnect
  split <;> rfl

lemma schedule_reconnect_notify (st : PoolState) (s : Option Sched) (d : Option Nat) :
    (schedule_reconnect st s d).notify_state = st.notify_state := by
  unfold schedule_reconnect
  split <;> rfl

lemma notify_up_or_down_critical (st : PoolState) (h : st.notify_state = .CRITICAL) :
    notify_up_or_down st = st := by
  unfold notify_up_or_down
  rw [if_neg, if_neg]
  · intro ⟨h1, _⟩; rcases h1 with h1 | h1 <;> rw [h] at h1 <;> cases h1
  · intro ⟨h1, _⟩; rcases h1 with h1 | h1 <;> rw [h] at h1 <;> cases h1

lemma notify_critical_error_critical (st : PoolState) (h : st.notify_state = .CRITICAL) :
    notify_critical_error st = st := by
  unfold notify_critical_error
  rw [if_neg]
  intro hc
  exact hc h

lemma maybe_closed_events_critical (st : PoolState) (h : st.notify_state ≠ .UP) :
    (maybe_closed st).events = st.events ∨ (maybe_closed st).events = st.events ++ [PoolEvent.onPoolClose] := by
  unfold maybe_closed
  split
  · right
    simp [h]
  · left; rfl

lemma upDownCount_append (a b : List PoolEvent) :
    upDownCount (a ++ b) = upDownCount a + upDownCount b := by
  unfold upDownCount
  exact List.countP_append _ _ _

lemma critCount_append (a b : List PoolEvent) :
    critCount (a ++ b) = critCount a + critCount b := by
  unfold critCount
  exact List.countP_append _ _ _

lemma maybe_closed_counts_critical (st : PoolState) (h : st.notify_state = .CRITICAL) :
    upDownCount (maybe_closed st).events = upDownCount st.events
    ∧ critCount (maybe_closed st).events = critCount st.events
    ∧ (maybe_closed st).notify_state = .CRITICAL := by
  refine ⟨?_, ?_, by rw [maybe_closed_notify]; exact h⟩ <;>
  · rcases maybe_closed_events_critical st (by rw [h]; intro hc; cases hc) with he | he <;>
      rw [he] <;> simp [upDownCount_append, critCount_append, upDownCount, critCount]

lemma internal_close_counts_critical (st : PoolState) (h : st.notify_state = .CRITICAL) :
    upDownCount (internal_close st).events = upDownCount st.events
    ∧ critCount (internal_close st).events = critCount st.events
    ∧ (internal_close st).notify_state = .CRITICAL := by
  by_cases hop : st.close_state = .OPEN
  · rw [internal_close_open st hop]
    have hnotify : (closing_stage st).notify_state = .CRITICAL := by
      rw [closing_stage_notify]; exact h
    have hev : (closing_stage st).events = st.events := rfl
    obtain ⟨h1, h2, h3⟩ := maybe_closed_counts_critical (closing_stage st) hnotify
    rw [hev] at h1 h2
    exact ⟨h1, h2, h3⟩
  · rw [internal_close_not_open st hop]
    exact ⟨rfl, rfl, h⟩

lemma on_reconnect_not_open (st : PoolState) (k : Connector) (o : ConnectorOutcome)
    (h : ¬st.close_state = .OPEN) :
    on_reconnect st k o = maybe_closed (erase_connector st k.kid) := by
  unfold on_reconnect
  rw [if_pos (show (erase_connector st k.kid).close_state ≠ .OPEN from h)]

lemma on_reconnect_ok (st : PoolState) (k : Connector) (sh : Nat)
    (h : st.close_state = .OPEN) :
    on_reconnect st k (.ok sh) =
      (if st.connections_by_shard.length > sh ∧
          (st.connections_by_shard.getD sh []).length < st.num_connections_per_shard then
        notify_up_or_down (add_connection
          { erase_connector st k.kid with next_cid := st.next_cid + 1 }
          ⟨st.next_cid, sh, false, 0⟩)
      else
        schedule_reconnect (erase_connector st k.kid)
          (some ((lookup_schedule st.reconnection_schedules k.kid).getD ⟨0, 0⟩))
          k.desired_shard_num) := by
  unfold on_reconnect
  rw [if_neg (show ¬(erase_connector st k.kid).close_state ≠ .OPEN from fun hne => hne h)]
  exact rfl

lemma on_reconnect_canceled (st : PoolState) (k : Connector)
    (h : st.close_state = .OPEN) :
    on_reconnect st k .canceled = erase_connector st k.kid := by
  unfold on_reconnect
  rw [if_neg (show ¬(erase_connector st k.kid).close_state ≠ .OPEN from fun hne => hne h)]

lemma on_reconnect_transient (st : PoolState) (k : Connector)
    (h : st.close_state = .OPEN) :
    on_reconnect st k .transientError =
      schedule_reconnect (erase_connector st k.kid)
        (some ((lookup_schedule st.reconnection_schedules k.kid).getD ⟨0, 0⟩))
        k.desired_shard_num := by
  unfold on_reconnect
  rw [if_neg (show ¬(erase_connector st k.kid).close_state ≠ .OPEN from fun hne => hne h)]

lemma on_reconnect_critical (st : PoolState) (k : Connector)
    (h : st.close_state = .OPEN) :
    on_reconnect st k .criticalError =
      internal_close (notify_critical_error (erase_connector st k.kid)) := by
  unfold on_reconnect
  rw [if_neg (show ¬(erase_connector st k.kid).close_state ≠ .OPEN from fun hne => hne h)]

lemma erase_connector_notify (st : PoolState) (kid : Nat) :
    (erase_connector st kid).notify_state = st.notify_state := rfl

lemma erase_connector_events (st : PoolState) (kid : Nat) :
    (erase_connector st kid).events = st.events := rfl

/-- Claim C9: once the notify state is CRITICAL the pool never emits
`on_pool_up` or `on_pool_down` again and never emits another
`on_pool_critical_error`: `notify_up_or_down` and `notify_critical_error`
are no-ops, and `maybe_closed`, `internal_close` and every `on_reconnect`
outcome preserve the CRITICAL state, the up/down event count and the
critical-error event count (the terminal DOWN of `maybe_closed` fires only
from UP). -/
theorem critical_is_absorbing (st : PoolState) (h : st.notify_state = .CRITICAL) :
    notify_up_or_down st = st
    ∧ notify_critical_error st = st
    ∧ ((maybe_closed st).notify_state = .CRITICAL
       ∧ upDownCount (maybe_closed st).events = upDownCount st.events
       ∧ critCount (maybe_closed st).events = critCount st.events)
    ∧ ((internal_close st).notify_state = .CRITICAL
       ∧ upDownCount (internal_close st).events = upDownCount st.events
       ∧ critCount (internal_close st).events = critCount st.events)
    ∧ (∀ k o, (on_reconnect st k o).notify_state = .CRITICAL
       ∧ upDownCount (on_reconnect st k o).events = upDownCount st.events
       ∧ critCount (on_reconnect st k o).events = critCount st.events) := by
  obtain ⟨m1, m2, m3⟩ := maybe_closed_counts_critical st h
  obtain ⟨i1, i2, i3⟩ := internal_close_counts_critical st h
  refine ⟨notify_up_or_down_critical st h, notify_critical_error_critical st h,
    ⟨m3, m1, m2⟩, ⟨i3, i1, i2⟩, ?_⟩
  intro k o
  by_cases hop : st.close_state = .OPEN
  · cases o with
    | ok reported_shard =>
      rw [on_reconnect_ok st k reported_shard hop]
      by_cases hslot : st.connections_by_shard.length > reported_shard ∧
          (st.connections_by_shard.getD reported_shard []).length < st.num_connections_per_shard
      · rw [if_pos hslot]
        rw [notify_up_or_down_critical _ (by exact h)]
        exact ⟨h, rfl, rfl⟩
      · rw [if_neg hslot]
        rw [schedule_reconnect_events, schedule_reconnect_notify]
        exact ⟨h, rfl, rfl⟩
    | canceled =>
      rw [on_reconnect_canceled st k hop]
      exact ⟨h, rfl, rfl⟩
    | transientError =>
      rw [on_reconnect_transient st k hop]
      rw [schedule_reconnect_events, schedule_reconnect_notify]
      exact ⟨h, rfl, rfl⟩
    | criticalError =>
      rw [on_reconnect_critical st k hop]
      rw [notify_critical_error_critical (erase_connector st k.kid) (by exact h)]
      obtain ⟨b1, b2, b3⟩ := internal_close_counts_critical (erase_connector st k.kid) (by exact h)
      rw [erase_connector_events] at b1 b2
      exact ⟨b3, b1, b2⟩
  · rw [on_reconnect_not_open st k o hop]
    obtain ⟨a1, a2, a3⟩ := maybe_closed_counts_critical (erase_connector st k.kid) (by exact h)
    rw [erase_connector_events] at a1 a2
    exact ⟨a3, a1, a2⟩

lemma notify_up_or_down_no_critical (st : PoolState) :
    critCount (notify_up_or_down st).events = critCount st.events
    ∧ ((notify_up_or_down st).notify_state = .CRITICAL → st.notify_state = .CRITICAL) := by
  unfold notify_up_or_down
  split
  · constructor
    · simp [critCount_append, critCount]
    · intro hc; cases hc
  · split
    · constructor
      · simp [critCount_append, critCount]
      · intro hc; cases hc
    · exact ⟨rfl, id⟩

/-- Claim C5: when a reconnect attempt succeeds but the slot of the reported
shard is full (or out of range), `on_reconnect` closes the new connection
(it is never added) and schedules another attempt passing the connector's
original `desired_shard_num`, reusing the SAME reconnection schedule `s`
(same identity, call count advanced by the one `next_delay_ms()` call, so
backoff keeps growing); the same reuse happens on a transient connect
error; and a successful connect (wrong shard or not) never raises a
critical error. -/
theorem wrong_shard_reuses_schedule (st : PoolState) (k : Connector) (s : Sched)
    (hop : st.close_state = .OPEN)
    (hs : lookup_schedule st.reconnection_schedules k.kid = some s) :
    (∀ sh, ¬(st.connections_by_shard.length > sh ∧
        (st.connections_by_shard.getD sh []).length < st.num_connections_per_shard) →
      on_reconnect st k (.ok sh) =
        schedule_reconnect (erase_connector st k.kid) (some s) k.desired_shard_num)
    ∧ on_reconnect st k .transientError =
        schedule_reconnect (erase_connector st k.kid) (some s) k.desired_shard_num
    ∧ (schedule_reconnect (erase_connector st k.kid) (some s) k.desired_shard_num).reconnection_schedules
        = (erase_connector st k.kid).reconnection_schedules ++ [(st.next_kid, ⟨s.sid, s.calls + 1⟩)]
    ∧ (schedule_reconnect (erase_connector st k.kid) (some s) k.desired_shard_num).pending_connections
        = (erase_connector st k.kid).pending_connections
          ++ [⟨st.next_kid,
               if k.desired_shard_num.isSome && shard_aware_port_advertised st
               then k.desired_shard_num else none, false⟩]
    ∧ (∀ sh, critCount (on_reconnect st k (.ok sh)).events = critCount st.events
        ∧ ((on_reconnect st k (.ok sh)).notify_state = .CRITICAL → st.notify_state = .CRITICAL)) := by
  refine ⟨?_, ?_, ?_, ?_, ?_⟩
  · intro sh hcond
    rw [on_reconnect_ok st k sh hop, if_neg hcond, hs]
    rfl
  · rw [on_reconnect_transient st k hop, hs]
    rfl
  · rfl
  · rfl
  · intro sh
    rw [on_reconnect_ok st k sh hop]
    by_cases hslot : st.connections_by_shard.length > sh ∧
        (st.connections_by_shard.getD sh []).length < st.num_connections_per_shard
    · rw [if_pos hslot]
      obtain ⟨c1, c2⟩ := notify_up_or_down_no_critical
        (add_connection { erase_connector st k.kid with next_cid := st.next_cid + 1 }
          ⟨st.next_cid, sh, false, 0⟩)
      constructor
      · rw [c1]; rfl
      · intro hc; exact c2 hc
    · rw [if_neg hslot]
      rw [schedule_reconnect_events, schedule_reconnect_notify]
      exact ⟨rfl, id⟩

lemma add_connection_slots_length (st : PoolState) (c : PooledConn) :
    (add_connection st c).connections_by_shard.length = st.connections_by_shard.length := by
  unfold add_connection
  simp

lemma schedule_reconnect_connections (st : PoolState) (s : Option Sched) (d : Option Nat) :
    (schedule_reconnect st s d).connections_by_shard = st.connections_by_shard := by
  unfold schedule_reconnect
  split <;> rfl

lemma placeConns_isSome (l : List PooledConn) (st : PoolState) :
    (placeConns st l).isSome = true ↔
      ∀ c ∈ l, c.is_closing = false → c.shard < st.connections_by_shard.length := by
  induction l generalizing st with
  | nil => simp [placeConns]
  | cons c cs ih =>
    unfold placeConns
    rcases hc : c.is_closing with _ | _
    · simp only [Bool.false_eq_true, if_false]
      by_cases hsh : c.shard < st.connections_by_shard.length
      · rw [if_pos hsh]
        have hmem : ∀ st' : PoolState, st'.connections_by_shard.length = st.connections_by_shard.length →
            ((∀ x ∈ cs, x.is_closing = false → x.shard < st'.connections_by_shard.length) ↔
             (∀ x ∈ c :: cs, x.is_closing = false → x.shard < st.connections_by_shard.length)) := by
          intro st' hlen
          rw [hlen]
          constructor
          · intro hall x hx hxc
            rcases List.mem_cons.mp hx with rfl | hx'
            · exact hsh
            · exact hall x hx' hxc
          · intro hall x hx hxc
            exact hall x (List.mem_cons_of_mem _ hx) hxc
        by_cases hroom : (st.connections_by_shard.getD c.shard []).length < st.num_connections_per_shard
        · rw [if_pos hroom, ih]
          exact hmem _ (add_connection_slots_length st c)
        · rw [if_neg hroom, ih]
          exact hmem st rfl
      · rw [if_neg hsh]
        constructor
        · intro hfalse; simp at hfalse
        · intro hall; exact absurd (hall c (List.mem_cons_self c cs) hc) hsh
    · simp only [if_true]
      rw [ih]
      constructor
      · intro hall x hx hxc
        rcases List.mem_cons.mp hx with rfl | hx'
        · rw [hc] at hxc; cases hxc
        · exact hall x hx' hxc
      · intro hall x hx hxc
        exact hall x (List.mem_cons_of_mem _ hx) hxc

/-- The slot-vector length picked by the constructor: `shards_count` when
the host has a sharding descriptor (`connections_by_shard_.resize(...)`),
1 otherwise. -/
def ctor_slots_len (sharding : Option ShardingInfo) : Nat :=
  match sharding with
  | some si => si.shards_count
  | none => 1

/-- Claim C10 (amended): construction is safe (no undefined behaviour)
precisely when the slot count — `shards_count` when a descriptor is
present, 1 otherwise — is nonzero AND every supplied non-closing connection
reports a shard id below it.  The second conjunct is the claim's unchecked
`connections_by_shard_[shard_id()]` read in the constructor (whereas
`on_reconnect` checks the slot index before inserting, see its definition);
the first is needed because a zero-shard descriptor (constructible, see
claim C4) already makes the constructor's `num_connections_per_host /
shards_count` divide by zero before the placement loop.  For
`shards_count ≥ 1` the bound coincides with the claimed
`max(1, shards_count)`, but at `shards_count = 0` the claimed precondition
does not make construction safe, which is what the counterexample
exhibits. -/
theorem pool_ctor_safe_iff (initial : List PooledConn) (sharding : Option ShardingInfo)
    (num_connections_per_host : Nat) :
    (mk_pool initial sharding num_connections_per_host).isSome = true ↔
      (ctor_slots_len sharding ≠ 0
       ∧ ∀ c ∈ initial, c.is_closing = false → c.shard < ctor_slots_len sharding) := by
  cases sharding with
  | none =>
    simp only [mk_pool, mk_pool_core, Option.isSome_map']
    rw [placeConns_isSome]
    unfold ctor_slots_len ctor_initial_state
    simp
  | some si =>
    by_cases h0 : si.shards_count = 0
    · simp only [mk_pool]
      rw [if_pos h0]
      unfold ctor_slots_len
      simp [h0]
    · simp only [mk_pool, mk_pool_core]
      rw [if_neg h0]
      simp only [Option.isSome_map']
      rw [placeConns_isSome]
      unfold ctor_slots_len ctor_initial_state
      simp [h0]

/-! ### Claim-specific scenarios and witnesses -/

/-- A descriptor for a 2-shard host without shard-aware ports. -/
def demoShardingInfo : ShardingInfo :=
  ⟨2, "org.apache.cassandra.dht.Murmur3Partitioner", "biased-token-round-robin", 0, none, none⟩

/-- Claim C8: for any pool whose host has a sharding descriptor, calling
`find_least_busy` with the genuine token `CASS_INT64_MIN` (the same value
as the "no token" sentinel) always performs the all-slots least-busy scan:
the per-shard branch is unreachable for this token, so such a request is
never routed through its own shard slot. -/
theorem min_token_always_all_slots (st : PoolState) (si : ShardingInfo)
    (h : st.sharding = some si) :
    find_least_busy st CASS_INT64_MIN = scan_all st.connections_by_shard := by
  unfold find_least_busy
  rw [if_pos rfl]

/-- A sharded pool whose slot 0 (the slot `shard_id(CASS_INT64_MIN) = 0`
would select) holds a busy connection while slot 1 holds an idle one. -/
def demoShardedPool : PoolState := {
  sharding := some demoShardingInfo, num_connections_per_shard := 1,
  connections_by_shard := [[⟨0, 0, false, 7⟩], [⟨1, 1, false, 0⟩]],
  pending_connections := [], reconnection_schedules := [],
  close_state := .OPEN, notify_state := .UP, self_ref := true, events := [],
  next_kid := 0, next_sid := 0, next_cid := 2 }

/-- Witness for `min_token_always_all_slots`: on the demo pool the result is
the idle connection of slot 1, not the token's own slot-0 connection. -/
theorem min_token_always_all_slots_witness :
    demoShardedPool.sharding = some demoShardingInfo
    ∧ find_least_busy demoShardedPool CASS_INT64_MIN = scan_all demoShardedPool.connections_by_shard
    ∧ (demoShardingInfo.shard_id CASS_INT64_MIN).toNat = 0
    ∧ find_least_busy demoShardedPool CASS_INT64_MIN = some ⟨1, 1, false, 0⟩ :=
  ⟨rfl, min_token_always_all_slots demoShardedPool demoShardingInfo rfl, by decide, by decide⟩

/-- Fallback value for reading the (always present) constructor result. -/
def emptyPoolState : PoolState := {
  sharding := none, num_connections_per_shard := 0, connections_by_shard := [],
  pending_connections := [], reconnection_schedules := [], close_state := .OPEN,
  notify_state := .NEW, self_ref := true, events := [], next_kid := 0, next_sid := 0,
  next_cid := 0 }

/-- The pool of spec scenario 5: created with zero initial connections on an
un-sharded host with one target connection. -/
def coldStartPool : PoolState := (mk_pool [] none 1).getD emptyPoolState

/-- `coldStartPool` after its single pending connect attempt reports a
critical error. -/
def coldStartAfterCritical : PoolState :=
  on_reconnect coldStartPool ⟨0, none, false⟩ .criticalError

/-- Claim C7 (counterexample): the constructor itself emits `on_pool_down`
(the `notify_up_or_down()` call in the constructor transitions NEW → DOWN
when no connection exists), so "no on_pool_down is ever emitted" is false:
the critical-error trace contains exactly one DOWN, emitted before any UP. -/
theorem cold_start_emits_down_counterexample :
    PoolEvent.onPoolDown ∈ coldStartAfterCritical.events
    ∧ coldStartPool.events = [PoolEvent.onPoolDown]
    ∧ PoolEvent.onPoolUp ∉ coldStartAfterCritical.events := by
  refine ⟨by decide, by decide, by decide⟩

/-- Claim C7 (amended): on a pool created with zero initial connections the
constructor emits `on_pool_down` once (notify state NEW → DOWN with no
connections); when the first connect attempt then fails with a critical
error the pool emits `on_pool_critical_error` once, closes, and emits
`on_close`, with no FURTHER `on_pool_down`: the terminal DOWN of
`maybe_closed` fires only from the UP notify state, which was never
reached. -/
theorem cold_start_critical_trace :
    coldStartPool.events = [PoolEvent.onPoolDown]
    ∧ coldStartPool.notify_state = .DOWN
    ∧ coldStartAfterCritical.events =
        [PoolEvent.onPoolDown, PoolEvent.onPoolCriticalError, PoolEvent.onPoolClose]
    ∧ coldStartAfterCritical.close_state = .CLOSED
    ∧ coldStartAfterCritical.notify_state = .CRITICAL
    ∧ coldStartAfterCritical.self_ref = false
    ∧ critCount coldStartAfterCritical.events = 1
    ∧ (∀ s : PoolState, s.notify_state ≠ .UP →
        upDownCount (maybe_closed s).events = upDownCount s.events) := by
  refine ⟨by decide, by decide, by decide, by decide, by decide, by decide, by decide, ?_⟩
  intro s hs
  unfold maybe_closed
  split
  · simp [hs, upDownCount_append, upDownCount]
  · rfl

/-- Witness for `cold_start_critical_trace`: its final conjunct applied at
the terminal state of the scenario itself. -/
theorem cold_start_critical_trace_witness :
    coldStartAfterCritical.notify_state ≠ NotifyState.UP
    ∧ upDownCount (maybe_closed coldStartAfterCritical).events =
        upDownCount coldStartAfterCritical.events :=
  ⟨by decide, cold_start_critical_trace.2.2.2.2.2.2.2 coldStartAfterCritical (by decide)⟩

/-- An OPEN pool with one live connection and one pending connector. -/
def demoOpenPool : PoolState := {
  sharding := none, num_connections_per_shard := 1,
  connections_by_shard := [[⟨0, 0, false, 2⟩]],
  pending_connections := [⟨1, none, false⟩],
  reconnection_schedules := [(1, ⟨0, 1⟩)],
  close_state := .OPEN, notify_state := .UP, self_ref := true, events := [.onPoolUp],
  next_kid := 2, next_sid := 1, next_cid := 1 }

/-- Witness for `close_is_idempotent`: the first-call conjunct discharged on
the demo OPEN pool. -/
theorem close_is_idempotent_witness :
    demoOpenPool.close_state = CloseState.OPEN
    ∧ ((∀ v ∈ (internal_close demoOpenPool).connections_by_shard, ∀ c ∈ v, c.is_closing = true)
       ∧ (∀ k ∈ (internal_close demoOpenPool).pending_connections, k.canceled = true)
       ∧ (internal_close demoOpenPool).close_state =
           (if has_connections demoOpenPool = false ∧ demoOpenPool.pending_connections = []
            then CloseState.CLOSED else CloseState.WAITING_FOR_CONNECTIONS)) :=
  ⟨rfl, (close_is_idempotent demoOpenPool).2.2.1 rfl⟩

/-- An OPEN pool holding one pending connector (kid 5) whose schedule has
already produced 3 delays, with a full (capacity-0) slot 0. -/
def demoReusePool : PoolState := {
  sharding := none, num_connections_per_shard := 0,
  connections_by_shard := [[]],
  pending_connections := [⟨5, none, false⟩],
  reconnection_schedules := [(5, ⟨7, 3⟩)],
  close_state := .OPEN, notify_state := .DOWN, self_ref := true, events := [],
  next_kid := 6, next_sid := 2, next_cid := 0 }

/-- Witness for `wrong_shard_reuses_schedule`: after a transient error the
connector's schedule (identity 7, 3 calls so far) is re-attached to the new
attempt with its call count advanced to 4. -/
theorem wrong_shard_reuses_schedule_witness :
    lookup_schedule demoReusePool.reconnection_schedules 5 = some ⟨7, 3⟩
    ∧ on_reconnect demoReusePool ⟨5, none, false⟩ ConnectorOutcome.transientError =
        schedule_reconnect (erase_connector demoReusePool 5) (some ⟨7, 3⟩) none
    ∧ (schedule_reconnect (erase_connector demoReusePool 5) (some (⟨7, 3⟩ : Sched))
          none).reconnection_schedules
        = (erase_connector demoReusePool 5).reconnection_schedules ++ [(6, ⟨7, 4⟩)] := by
  refine ⟨by decide, ?_, ?_⟩
  · exact (wrong_shard_reuses_schedule demoReusePool ⟨5, none, false⟩ ⟨7, 3⟩ rfl (by decide)).2.1
  · exact (wrong_shard_reuses_schedule demoReusePool ⟨5, none, false⟩ ⟨7, 3⟩ rfl (by decide)).2.2.1

/-- A pool whose notify state has reached CRITICAL. -/
def demoCriticalPool : PoolState := {
  sharding := none, num_connections_per_shard := 1, connections_by_shard := [[]],
  pending_connections := [], reconnection_schedules := [], close_state := .OPEN,
  notify_state := .CRITICAL, self_ref := true,
  events := [.onPoolDown, .onPoolCriticalError], next_kid := 1, next_sid := 1, next_cid := 0 }

/-- Witness for `critical_is_absorbing` on a concrete CRITICAL pool. -/
theorem critical_is_absorbing_witness :
    notify_up_or_down demoCriticalPool = demoCriticalPool
    ∧ notify_critical_error demoCriticalPool = demoCriticalPool :=
  ⟨(critical_is_absorbing demoCriticalPool rfl).1,
   (critical_is_absorbing demoCriticalPool rfl).2.1⟩

/-- A (parseable, see claim C4) descriptor announcing zero shards. -/
def zeroShardInfo : ShardingInfo :=
  ⟨0, "org.apache.cassandra.dht.Murmur3Partitioner", "biased-token-round-robin", 0, none, none⟩

/-- Claim C10 (counterexample): with a descriptor whose `shards_count` is 0
the constructor computes `num_connections_per_host / hosts_shard_cnt` — a
division by zero, undefined behaviour before the placement loop — so the
claimed precondition does not make construction safe.  Even an EMPTY list
of supplied connections, which satisfies "every supplied non-closing
connection reports `shard_id < max(1, shards_count)`" vacuously, faults
(`mk_pool` returns `none` at the division); a non-closing connection
reporting shard 0, also within the claimed bound `max(1, 0) = 1`, faults
the same way. -/
theorem ctor_unchecked_index_counterexample :
    ((∀ c ∈ ([] : List PooledConn), c.is_closing = false →
        c.shard < max 1 zeroShardInfo.shards_count)
     ∧ mk_pool [] (some zeroShardInfo) 1 = none)
    ∧ ((0 : Nat) < max 1 zeroShardInfo.shards_count
       ∧ (⟨0, 0, false, 5⟩ : PooledConn).is_closing = false
       ∧ mk_pool [⟨0, 0, false, 5⟩] (some zeroShardInfo) 1 = none) := by
  refine ⟨⟨by decide, by decide⟩, by decide, by decide, by decide⟩

/-- Witness for `pool_ctor_safe_iff`: a 2-shard pool construction with one
in-range connection succeeds. -/
theorem pool_ctor_safe_iff_witness :
    (mk_pool [⟨0, 1, false, 0⟩] (some demoShardingInfo) 2).isSome = true :=
  (pool_ctor_safe_iff [⟨0, 1, false, 0⟩] (some demoShardingInfo) 2).mpr (by decide)
